import Mathlib

/-!
Shallow embedding of `src/src/RigidBodyNodeSpec.h` (Simbody's templated
rigid-body-node skeleton `RigidBodyNodeSpec<dof>`).

Modelling conventions:
* `Real` is embedded as `ℚ`; every operation the claims touch is an exact
  copy, product or sum, so exact rationals are faithful.
* The shared flat arrays (q, u, qdot, udot, cache storage) are `ℕ → ℚ`
  (or `ℕ → Vec3 × Vec3` for the column storage of H matrices); a node
  addresses them through its slot indices exactly as the `fromQ/toQ/
  fromU/toU` and `getH_FM/updH_FM` accessors do in the source.
* The template parameter `dof` is a field of the node; `HType`
  (`Mat<2,dof,Vec3>`) is modelled column-wise as `Fin dof → Vec3 × Vec3`,
  a column being its (angular, linear) pair of `Vec3` rows.
* C++ `assert` is modelled by returning `Option`: `none` is the fatal
  assertion failure, `some` the normal result.
* Pure-virtual joint-specific methods (`calcAcrossJointTransform`,
  `calcAcrossJointVelocityJacobian`, ...) and methods whose bodies live in
  translation units not present under `src/` (`calcReverseMobilizerH_FM`,
  `calcParentToChildVelocityJacobianInGround`,
  `calcJointIndependentKinematicsPos`, `calcJointSinCosQNorm`, ...) are
  modelled as fields of a `JointImpl` record passed to the realize
  functions; the realize pipeline is embedded exactly as the header runs
  it, with those fields called at the same points and their outputs
  written to the same cache slots.
-/

/-- 3-component vector of exact reals. -/
structure Vec3 where
  x : ℚ
  y : ℚ
  z : ℚ
deriving DecidableEq, Repr

def Vec3.add (a b : Vec3) : Vec3 := ⟨a.x + b.x, a.y + b.y, a.z + b.z⟩

def Vec3.neg (a : Vec3) : Vec3 := ⟨-a.x, -a.y, -a.z⟩

def Vec3.smul (c : ℚ) (a : Vec3) : Vec3 := ⟨c * a.x, c * a.y, c * a.z⟩

def Vec3.dot (a b : Vec3) : ℚ := a.x * b.x + a.y * b.y + a.z * b.z

def Vec3.zero : Vec3 := ⟨0, 0, 0⟩

/-- 3x3 matrix, stored as its three rows. -/
structure Mat33 where
  r0 : Vec3
  r1 : Vec3
  r2 : Vec3
deriving DecidableEq, Repr

def Mat33.transpose (m : Mat33) : Mat33 :=
  ⟨⟨m.r0.x, m.r1.x, m.r2.x⟩, ⟨m.r0.y, m.r1.y, m.r2.y⟩, ⟨m.r0.z, m.r1.z, m.r2.z⟩⟩

def Mat33.mulVec (m : Mat33) (v : Vec3) : Vec3 :=
  ⟨m.r0.dot v, m.r1.dot v, m.r2.dot v⟩

def Mat33.mul (m n : Mat33) : Mat33 :=
  ⟨⟨m.r0.dot n.transpose.r0, m.r0.dot n.transpose.r1, m.r0.dot n.transpose.r2⟩,
   ⟨m.r1.dot n.transpose.r0, m.r1.dot n.transpose.r1, m.r1.dot n.transpose.r2⟩,
   ⟨m.r2.dot n.transpose.r0, m.r2.dot n.transpose.r1, m.r2.dot n.transpose.r2⟩⟩

def Mat33.identity : Mat33 := ⟨⟨1, 0, 0⟩, ⟨0, 1, 0⟩, ⟨0, 0, 1⟩⟩

/-- Rigid-body transform: rotation matrix `R` and translation `p`
(`X(v) = R v + p`), the embedding of SimTK `Transform`. -/
structure Transform where
  R : Mat33
  p : Vec3
deriving DecidableEq, Repr

/-- Transform composition, `X_AC = X_AB * X_BC`. -/
def Transform.mul (xab xbc : Transform) : Transform :=
  ⟨xab.R.mul xbc.R, (xab.R.mulVec xbc.p).add xab.p⟩

/-- Transform inverse `~X` (rotation inverse is the transpose, since the
rotation part is orthogonal for genuine rigid transforms). -/
def Transform.invert (x : Transform) : Transform :=
  ⟨x.R.transpose, (x.R.transpose.mulVec x.p).neg⟩

def Transform.identity : Transform := ⟨Mat33.identity, Vec3.zero⟩

/-- Spatial vector: (angular, linear) pair of `Vec3`, the embedding of
SimTK `SpatialVec = Vec<2,Vec3>`. -/
abbrev SpatialVec : Type := Vec3 × Vec3

/-- `HType = Mat<2,dof,Vec3>` modelled column-wise: column `j` is the
(angular-row, linear-row) pair of `Vec3` entries for generalized speed
`j`.  The source's caution applies: this H is transposed from Jain and
Schwieters. -/
abbrev HType (d : ℕ) : Type := Fin d → SpatialVec

/-- Sum of a `Fin d`-indexed family of `Vec3`. -/
def vsum : {d : ℕ} → (Fin d → Vec3) → Vec3
  | 0, _ => Vec3.zero
  | _ + 1, f => (f 0).add (vsum (fun j => f j.succ))

/-- `H * u` for `H : Mat<2,dof,Vec3>` and `u : Vec<dof>`: each spatial
row of the result is the u-weighted sum of that row's columns. -/
def hmul {d : ℕ} (H : HType d) (u : Fin d → ℚ) : SpatialVec :=
  (vsum (fun j => Vec3.smul (u j) (H j).1), vsum (fun j => Vec3.smul (u j) (H j).2))

/-- `enum QDotHandling` from `RigidBodyNode.h` (declaration not under
`src/`; the two enumerator names are those the header under `src/` uses). -/
inductive QDotHandling where
  | QDotIsAlwaysTheSameAsU
  | QDotMayDifferFromU
deriving DecidableEq, Repr

/-- `enum QuaternionUse` from `RigidBodyNode.h` (declaration not under
`src/`; `QuaternionIsNeverUsed` is the enumerator the header under `src/`
asserts against). -/
inductive QuaternionUse where
  | QuaternionIsNeverUsed
  | QuaternionMayBeUsed
deriving DecidableEq, Repr

/-- Mass properties bound at node construction (mass, center of mass,
inertia); opaque to every claim, carried for fidelity of the
constructor's signature. -/
structure MassProperties where
  mass : ℚ
  com : Vec3
  inertia : Mat33
deriving DecidableEq, Repr

/-- The per-node data of `RigidBodyNodeSpec<dof>` / its `RigidBodyNode`
base: the compile-time `dof` is a field here; `maxNQ` is the value the
virtual `getMaxNQ()` returns for the node's concrete mobilizer type
(equal to `dof` for every type that does not override the default). -/
structure RBNode where
  dof : ℕ
  maxNQ : ℕ
  uIndex : ℕ
  uSqIndex : ℕ
  qIndex : ℕ
  qdotHandling : QDotHandling
  quaternionUse : QuaternionUse
  isReversed : Bool
  massProps : MassProperties
  X_PF : Transform
  X_MB : Transform
deriving DecidableEq, Repr

/-- `getDOF()` — returns the template argument. -/
def RBNode.getDOF (n : RBNode) : ℕ := n.dof

/-- Overwrite `len` entries of the flat array `a` starting at `start`
with `src 0, src 1, ...`; everything outside that slice is untouched.
This is what a `Vec<dof>::updAs(&a[start]) = ...` write does. -/
def writeSlice {α : Type} (a : ℕ → α) (start len : ℕ) (src : ℕ → α) : ℕ → α :=
  fun i => if start ≤ i ∧ i < start + len then src (i - start) else a i

/-- `fromU(u)`: this node's `Vec<dof>` slice of the shared u array,
starting at `uIndex`. -/
def RBNode.fromU (n : RBNode) (u : ℕ → ℚ) : Fin n.dof → ℚ :=
  fun j => u (n.uIndex + j)

/-- `fromQ(q)`: this node's `Vec<dof>` slice of the shared q array,
starting at `qIndex`. -/
def RBNode.fromQ (n : RBNode) (q : ℕ → ℚ) : Fin n.dof → ℚ :=
  fun j => q (n.qIndex + j)

/-- `toQ(q) = src`: write this node's dof-sized q slice. -/
def RBNode.toQwrite (n : RBNode) (q : ℕ → ℚ) (src : ℕ → ℚ) : ℕ → ℚ :=
  writeSlice q n.qIndex n.dof src

/-- `toU(u) = src`: write this node's dof-sized u slice. -/
def RBNode.toUwrite (n : RBNode) (u : ℕ → ℚ) (src : ℕ → ℚ) : ℕ → ℚ :=
  writeSlice u n.uIndex n.dof src

/-- Model variables; their content is irrelevant to every method under
`src/` (they are only forwarded to joint-specific virtuals), so the
structure is opaque. -/
structure SBModelVars where
  dummy : Unit
deriving DecidableEq, Repr

/-- Topology cache, opaque (only forwarded). -/
structure SBTopologyCache where
  dummy : Unit
deriving DecidableEq, Repr

structure SBInstanceVars where
  dummy : Unit
deriving DecidableEq, Repr

structure SBTimeVars where
  dummy : Unit
deriving DecidableEq, Repr

structure SBDynamicsVars where
  dummy : Unit
deriving DecidableEq, Repr

/-- Position-stage cache, restricted to the entries the header reads or
writes.  `storageForH_FM` and `storageForH` are the flat column pools the
`getH_FM/updH_FM/getH/updH` accessors address at `uIndex` (their bodies
are in the header, lines 588-599).  The per-body transform entries
(accessors live in `RigidBodyNode.h`, not under `src/`) are modelled as
this node's own slots `X_FM`, `X_PB`, `X_GB` plus the parent's
already-realized ground transform `X_GP`, matching the spec's
"each node reads/writes only its own slice ... except through an explicit
already-realized accessor on an ancestor".  `jointIndependentPos` stands
for the remaining joint-independent position results (COM, spatial
inertia, phi), written only by `calcJointIndependentKinematicsPos`. -/
structure SBPositionCache where
  sq : ℕ → ℚ
  cq : ℕ → ℚ
  qnorm : ℕ → ℚ
  X_FM : Transform
  X_PB : Transform
  X_GB : Transform
  X_GP : Transform
  storageForH_FM : ℕ → SpatialVec
  storageForH : ℕ → SpatialVec
  jointIndependentPos : ℕ → ℚ

/-- Velocity-stage cache entries the header writes: this node's relative
spatial velocities `V_FM` and `V_PB_G` (accessor bodies in
`RigidBodyNode.h`, modelled as this node's slots), plus the
joint-independent velocity results. -/
structure SBVelocityCache where
  V_FM : SpatialVec
  V_PB_G : SpatialVec
  jointIndependentVel : ℕ → ℚ

/-- Dynamics-stage cache entries the header touches: the flat column
pools for `HDot_FM` and `HDot` (accessors at lines 621-630, addressed at
`uIndex`), this node's velocity-dependent `VD_PB_G`, and the
joint-independent dynamics results. -/
structure SBDynamicsCache where
  storageForHDot_FM : ℕ → SpatialVec
  storageForHDot : ℕ → SpatialVec
  VD_PB_G : SpatialVec
  jointIndependentDyn : ℕ → ℚ

/-- The state digest handed to every realize function: the state
variables (q, u, qErr being written by `calcJointSinCosQNorm`), model
variables, and the stage caches. -/
structure SBStateDigest where
  q : ℕ → ℚ
  u : ℕ → ℚ
  qErr : ℕ → ℚ
  mv : SBModelVars
  pc : SBPositionCache
  vc : SBVelocityCache
  dc : SBDynamicsCache

/-- `getH_FM(pc)`: reinterpret the `dof` columns of `storageForH_FM`
starting at column `uIndex` as this node's `HType` (source lines
588-589). -/
def RBNode.getH_FM (n : RBNode) (pc : SBPositionCache) : HType n.dof :=
  fun j => pc.storageForH_FM (n.uIndex + j)

/-- `getH(pc)`: same for the ground-frame `H_PB_G` pool (source lines
596-597). -/
def RBNode.getH (n : RBNode) (pc : SBPositionCache) : HType n.dof :=
  fun j => pc.storageForH (n.uIndex + j)

/-- `getHDot_FM(dc)` (source lines 621-622). -/
def RBNode.getHDot_FM (n : RBNode) (dc : SBDynamicsCache) : HType n.dof :=
  fun j => dc.storageForHDot_FM (n.uIndex + j)

/-- `getHDot(dc)` (source lines 627-628). -/
def RBNode.getHDot (n : RBNode) (dc : SBDynamicsCache) : HType n.dof :=
  fun j => dc.storageForHDot (n.uIndex + j)

/-- `updH_FM(pc) = H`: overwrite the node's `dof` columns of a flat
column pool, as the `HType::updAs(&pool(0,uIndex))` write does. -/
def writeHcols (pool : ℕ → SpatialVec) (start d : ℕ) (H : Fin d → SpatialVec) :
    ℕ → SpatialVec :=
  fun i => if h : start ≤ i ∧ i < start + d then H ⟨i - start, by omega⟩ else pool i

/-- The joint-specific virtuals and the methods whose bodies are not in
the header under `src/`, bundled as explicit parameters of the realize
pipeline.  Each field is invoked by the pipeline at exactly the call
site the header uses. -/
structure JointImpl (d : ℕ) where
  /-- `calcJointSinCosQNorm(mv,mc,ic,q,sq,cq,qErr,qnorm)` (joint-specific,
  body not under `src/`): produces the new `sq`, `cq`, `qErr`, `qnorm`. -/
  calcJointSinCosQNorm : SBStateDigest → (ℕ → ℚ) × (ℕ → ℚ) × (ℕ → ℚ) × (ℕ → ℚ)
  /-- Pure virtual `calcAcrossJointTransform(sbs, q, X_F0M0)`: the
  across-joint transform as defined. -/
  calcAcrossJointTransform : SBStateDigest → (ℕ → ℚ) → Transform
  /-- Pure virtual `calcAcrossJointVelocityJacobian(sbs, H_F0M0)`. -/
  calcAcrossJointVelocityJacobian : SBStateDigest → HType d
  /-- Virtual `calcReverseMobilizerH_FM(sbs, H_FM)` (default body in a
  translation unit not under `src/`). -/
  calcReverseMobilizerH_FM : SBStateDigest → HType d
  /-- Pure virtual `calcAcrossJointVelocityJacobianDot(sbs, HDot_F0M0)`. -/
  calcAcrossJointVelocityJacobianDot : SBStateDigest → HType d
  /-- Virtual `calcReverseMobilizerHDot_FM(sbs, HDot_FM)`. -/
  calcReverseMobilizerHDot_FM : SBStateDigest → HType d
  /-- `calcParentToChildVelocityJacobianInGround(mv,pc,H_PB_G)` (body not
  under `src/`); its result is written to the `storageForH` columns. -/
  calcParentToChildVelocityJacobianInGround : SBModelVars → SBPositionCache → HType d
  /-- `calcParentToChildVelocityJacobianInGroundDot(mv,pc,vc,dc,HDot_PB_G)`
  (body not under `src/`). -/
  calcParentToChildVelocityJacobianInGroundDot :
    SBModelVars → SBPositionCache → SBVelocityCache → SBDynamicsCache → HType d
  /-- `calcJointIndependentKinematicsPos(pc)` (body not under `src/`);
  writes only the joint-independent position results. -/
  calcJointIndependentKinematicsPos : SBPositionCache → (ℕ → ℚ)
  /-- `calcJointIndependentKinematicsVel(pc,vc)` (body not under `src/`). -/
  calcJointIndependentKinematicsVel : SBPositionCache → SBVelocityCache → (ℕ → ℚ)
  /-- `calcJointIndependentDynamicsVel(pc,vc,dc)` (body not under `src/`). -/
  calcJointIndependentDynamicsVel :
    SBPositionCache → SBVelocityCache → SBDynamicsCache → (ℕ → ℚ)

/-- Default `setQToFitTransformImpl` (source lines 112-115): fit the
rotation part first, then the translation part, each mutating `q` in
turn.  The two joint-specific impls are passed explicitly (pure-ish
virtual, no default bodies exist). -/
def setQToFitTransformImpl
    (setQToFitRotationImpl : SBStateDigest → Mat33 → (ℕ → ℚ) → (ℕ → ℚ))
    (setQToFitTranslationImpl : SBStateDigest → Vec3 → (ℕ → ℚ) → (ℕ → ℚ))
    (sbs : SBStateDigest) (X_FM : Transform) (q : ℕ → ℚ) : ℕ → ℚ :=
  setQToFitTranslationImpl sbs X_FM.p (setQToFitRotationImpl sbs X_FM.R q)

/-- Default `setUToFitVelocityImpl` (source lines 117-120): fit the
angular component first, then the linear component, each mutating `u`. -/
def setUToFitVelocityImpl
    (setUToFitAngularVelocityImpl : SBStateDigest → (ℕ → ℚ) → Vec3 → (ℕ → ℚ) → (ℕ → ℚ))
    (setUToFitLinearVelocityImpl : SBStateDigest → (ℕ → ℚ) → Vec3 → (ℕ → ℚ) → (ℕ → ℚ))
    (sbs : SBStateDigest) (q : ℕ → ℚ) (V_FM : SpatialVec) (u : ℕ → ℚ) : ℕ → ℚ :=
  setUToFitLinearVelocityImpl sbs q V_FM.2 (setUToFitAngularVelocityImpl sbs q V_FM.1 u)

/-- `calcBodyTransforms(pc, X_PB, X_GB)` (source lines 184-196):
`X_PB = X_PF * X_FM * X_MB`, `X_GB = X_GP * X_PB`, from the two fixed
transforms, the just-calculated `X_FM` and the parent's already-realized
`X_GP`. -/
def RBNode.calcBodyTransforms (n : RBNode) (pc : SBPositionCache) :
    Transform × Transform :=
  let X_PB := (n.X_PF.mul pc.X_FM).mul n.X_MB
  let X_GB := pc.X_GP.mul X_PB
  (X_PB, X_GB)

/-- `calcJointKinematicsVel(pc, u, vc)` (source lines 227-234):
`V_FM = H_FM * fromU(u)`, `V_PB_G = H * fromU(u)`. -/
def RBNode.calcJointKinematicsVel (n : RBNode) (pc : SBPositionCache)
    (u : ℕ → ℚ) (vc : SBVelocityCache) : SBVelocityCache :=
  { vc with
    V_FM := hmul (n.getH_FM pc) (n.fromU u)
    V_PB_G := hmul (n.getH pc) (n.fromU u) }

/-- `calcJointDynamics(pc, u, vc, dc)` (source lines 240-247):
`VD_PB_G = HDot * fromU(u)`. -/
def RBNode.calcJointDynamics (n : RBNode) (pc : SBPositionCache)
    (u : ℕ → ℚ) (vc : SBVelocityCache) (dc : SBDynamicsCache) : SBDynamicsCache :=
  { dc with VD_PB_G := hmul (n.getHDot dc) (n.fromU u) }

/-- Default `calcQDot(sbs, u, qdot)` (source lines 252-259):
`assert(qdotHandling == QDotIsAlwaysTheSameAsU); toQ(qdot) = fromU(u)`. -/
def RBNode.calcQDot (n : RBNode) (u qdot : ℕ → ℚ) : Option (ℕ → ℚ) :=
  if n.qdotHandling = QDotHandling.QDotIsAlwaysTheSameAsU then
    some (n.toQwrite qdot (fun k => u (n.uIndex + k)))
  else none

/-- Default `calcQDotDot(sbs, udot, qdotdot)` (source lines 261-268):
`assert(qdotHandling == QDotIsAlwaysTheSameAsU); toQ(qdotdot) = fromU(udot)`. -/
def RBNode.calcQDotDot (n : RBNode) (udot qdotdot : ℕ → ℚ) : Option (ℕ → ℚ) :=
  if n.qdotHandling = QDotHandling.QDotIsAlwaysTheSameAsU then
    some (n.toQwrite qdotdot (fun k => udot (n.uIndex + k)))
  else none

/-- Default `calcLocalQDotFromLocalU(sbs, u, qdot)` (source lines
426-429): the pointers are already this node's local slices, so
`Vec<dof>::updAs(qdot) = Vec<dof>::getAs(u)` copies entries 0..dof-1. -/
def RBNode.calcLocalQDotFromLocalU (n : RBNode) (u qdot : ℕ → ℚ) : Option (ℕ → ℚ) :=
  if n.qdotHandling = QDotHandling.QDotIsAlwaysTheSameAsU then
    some (writeSlice qdot 0 n.dof u)
  else none

/-- Default `calcLocalQDotDotFromLocalUDot(sbs, udot, qdotdot)` (source
lines 432-435). -/
def RBNode.calcLocalQDotDotFromLocalUDot (n : RBNode) (udot qdotdot : ℕ → ℚ) :
    Option (ℕ → ℚ) :=
  if n.qdotHandling = QDotHandling.QDotIsAlwaysTheSameAsU then
    some (writeSlice qdotdot 0 n.dof udot)
  else none

/-- Default `multiplyByN` (source lines 443-448): asserts the identity
N-block, then copies dof values from `inp` to `out` regardless of
`matrixOnRight`. -/
def RBNode.multiplyByN (n : RBNode) (useEulerAnglesIfPossible : Bool)
    (q : ℕ → ℚ) (matrixOnRight : Bool) (inp out : ℕ → ℚ) : Option (ℕ → ℚ) :=
  if n.qdotHandling = QDotHandling.QDotIsAlwaysTheSameAsU then
    some (writeSlice out 0 n.dof inp)
  else none

/-- Default `multiplyByNInv` (source lines 450-455). -/
def RBNode.multiplyByNInv (n : RBNode) (useEulerAnglesIfPossible : Bool)
    (q : ℕ → ℚ) (matrixOnRight : Bool) (inp out : ℕ → ℚ) : Option (ℕ → ℚ) :=
  if n.qdotHandling = QDotHandling.QDotIsAlwaysTheSameAsU then
    some (writeSlice out 0 n.dof inp)
  else none

/-- Default `getMaxNQ()` (source lines 402-405):
`assert(quaternionUse == QuaternionIsNeverUsed); return dof`. -/
def RBNode.getMaxNQdefault (n : RBNode) : Option ℕ :=
  if n.quaternionUse = QuaternionUse.QuaternionIsNeverUsed then some n.dof else none

/-- Default `getNQInUse(mv)` (source lines 406-409). -/
def RBNode.getNQInUse (n : RBNode) (mv : SBModelVars) : Option ℕ :=
  if n.quaternionUse = QuaternionUse.QuaternionIsNeverUsed then some n.dof else none

/-- `getNUInUse(mv)` (source lines 410-415): always the template dof, no
assertion. -/
def RBNode.getNUInUse (n : RBNode) (mv : SBModelVars) : ℕ := n.dof

/-- Default `isUsingQuaternion(sbs, startOfQuaternion)` (source lines
416-420): asserts no quaternion, invalidates the start index
(modelled as `none`) and returns false. -/
def RBNode.isUsingQuaternion (n : RBNode) (sbs : SBStateDigest) :
    Option (Bool × Option ℕ) :=
  if n.quaternionUse = QuaternionUse.QuaternionIsNeverUsed then
    some (false, none)
  else none

/-- Default `enforceQuaternionConstraints(sbs, q, qErrest)` (source lines
490-497): asserts no quaternion and returns false (no change made to q,
which is returned unchanged alongside). -/
def RBNode.enforceQuaternionConstraints (n : RBNode) (sbs : SBStateDigest)
    (q qErrest : ℕ → ℚ) : Option (Bool × (ℕ → ℚ)) :=
  if n.quaternionUse = QuaternionUse.QuaternionIsNeverUsed then
    some (false, q)
  else none

/-- Default `copyQ(mv, qIn, q)` (source lines 383-390): asserts no
quaternion, then `toQ(q) = fromQ(qIn)`. -/
def RBNode.copyQ (n : RBNode) (mv : SBModelVars) (qIn q : ℕ → ℚ) :
    Option (ℕ → ℚ) :=
  if n.quaternionUse = QuaternionUse.QuaternionIsNeverUsed then
    some (n.toQwrite q (fun k => qIn (n.qIndex + k)))
  else none

/-- `copyU(mv, uIn, u)` (source lines 393-399): not virtual, no
assertion; `toU(u) = fromU(uIn)`. -/
def RBNode.copyU (n : RBNode) (mv : SBModelVars) (uIn u : ℕ → ℚ) : ℕ → ℚ :=
  n.toUwrite u (fun k => uIn (n.uIndex + k))

/-- `realizeModel(sbs)` (source lines 270-272): empty body, the digest is
left untouched. -/
def RBNode.realizeModel (n : RBNode) (sbs : SBStateDigest) : SBStateDigest := sbs

/-- `realizeInstance(sbs)` (source lines 274-276): empty body. -/
def RBNode.realizeInstance (n : RBNode) (sbs : SBStateDigest) : SBStateDigest := sbs

/-- `realizeTime(sbs)` (source lines 278-280): empty body. -/
def RBNode.realizeTime (n : RBNode) (sbs : SBStateDigest) : SBStateDigest := sbs

/-- `realizeAcceleration(sbs)` (source lines 339-341): empty body. -/
def RBNode.realizeAcceleration (n : RBNode) (sbs : SBStateDigest) : SBStateDigest := sbs

/-- `realizeReport(sbs)` (source lines 343-345): empty body. -/
def RBNode.realizeReport (n : RBNode) (sbs : SBStateDigest) : SBStateDigest := sbs

/-- The digest after the `calcJointSinCosQNorm` call at the top of
`realizePosition` (source line 290): new `sq`, `cq`, `qErr`, `qnorm`; q
and u themselves are untouched. -/
def RBNode.sinCosStep (n : RBNode) (impl : JointImpl n.dof)
    (sbs : SBStateDigest) : SBStateDigest :=
  let t := impl.calcJointSinCosQNorm sbs
  { sbs with
    qErr := t.2.2.1
    pc := { sbs.pc with sq := t.1, cq := t.2.1, qnorm := t.2.2.2 } }

/-- The digest after `realizePosition` has stored `X_FM` (inverted when
reversed, source lines 292-297) and the body transforms from
`calcBodyTransforms` (line 299), immediately before the H_FM branch. -/
def RBNode.transformStep (n : RBNode) (impl : JointImpl n.dof)
    (sbs : SBStateDigest) : SBStateDigest :=
  let sbs1 := n.sinCosStep impl sbs
  let X_FM :=
    if n.isReversed then (impl.calcAcrossJointTransform sbs1 sbs1.q).invert
    else impl.calcAcrossJointTransform sbs1 sbs1.q
  let pc2 := { sbs1.pc with X_FM := X_FM }
  let xb := n.calcBodyTransforms pc2
  { sbs1 with pc := { pc2 with X_PB := xb.1, X_GB := xb.2 } }

/-- `realizePosition(sbs)` (source lines 284-307): trig/normalization,
across-joint transform (inverted when reversed), body transforms,
H_FM via the reversed-mobilizer adapter or the as-defined Jacobian,
ground-frame H, then the joint-independent position kinematics. -/
def RBNode.realizePosition (n : RBNode) (impl : JointImpl n.dof)
    (sbs : SBStateDigest) : SBStateDigest :=
  let sbs3 := n.transformStep impl sbs
  let hFM :=
    if n.isReversed then impl.calcReverseMobilizerH_FM sbs3
    else impl.calcAcrossJointVelocityJacobian sbs3
  let pc4 := { sbs3.pc with
    storageForH_FM := writeHcols sbs3.pc.storageForH_FM n.uIndex n.dof hFM }
  let pc5 := { pc4 with
    storageForH := writeHcols pc4.storageForH n.uIndex n.dof
      (impl.calcParentToChildVelocityJacobianInGround sbs.mv pc4) }
  let pc6 := { pc5 with
    jointIndependentPos := impl.calcJointIndependentKinematicsPos pc5 }
  { sbs3 with pc := pc6 }

/-- `realizeVelocity(sbs)` (source lines 311-318): `calcQDot` into the
qdot array, then `calcJointKinematicsVel` and the joint-independent
velocity kinematics.  The qdot array lives in the state; the digest's
`calcQDot` write is returned alongside (`none` when the un-overridden
default is called in the wrong qdot mode). -/
def RBNode.realizeVelocity (n : RBNode) (impl : JointImpl n.dof)
    (sbs : SBStateDigest) (qdot : ℕ → ℚ) : Option ((ℕ → ℚ) × SBStateDigest) :=
  match n.calcQDot sbs.u qdot with
  | none => none
  | some qdot1 =>
    let vc1 := n.calcJointKinematicsVel sbs.pc sbs.u sbs.vc
    let vc2 := { vc1 with
      jointIndependentVel := impl.calcJointIndependentKinematicsVel sbs.pc vc1 }
    some (qdot1, { sbs with vc := vc2 })

/-- `realizeDynamics(sbs)` (source lines 320-337): HDot_FM via the
reversed adapter or the as-defined Jacobian derivative, ground-frame
HDot, `calcJointDynamics`, then the joint-independent dynamics. -/
def RBNode.realizeDynamics (n : RBNode) (impl : JointImpl n.dof)
    (sbs : SBStateDigest) : SBStateDigest :=
  let hDotFM :=
    if n.isReversed then impl.calcReverseMobilizerHDot_FM sbs
    else impl.calcAcrossJointVelocityJacobianDot sbs
  let dc1 := { sbs.dc with
    storageForHDot_FM := writeHcols sbs.dc.storageForHDot_FM n.uIndex n.dof hDotFM }
  let dc2 := { dc1 with
    storageForHDot := writeHcols dc1.storageForHDot n.uIndex n.dof
      (impl.calcParentToChildVelocityJacobianInGroundDot sbs.mv sbs.pc sbs.vc dc1) }
  let dc3 := n.calcJointDynamics sbs.pc sbs.u sbs.vc dc2
  let dc4 := { dc3 with
    jointIndependentDyn := impl.calcJointIndependentDynamicsVel sbs.pc sbs.vc dc3 }
  { sbs with dc := dc4 }

/-- Default `setMobilizerDefaultModelValues` (source line 363): empty
body. -/
def RBNode.setMobilizerDefaultModelValues (n : RBNode) (tc : SBTopologyCache)
    (mv : SBModelVars) : SBModelVars := mv

/-- Default `setMobilizerDefaultInstanceValues` (source line 364): empty
body. -/
def RBNode.setMobilizerDefaultInstanceValues (n : RBNode) (mv : SBModelVars)
    (iv : SBInstanceVars) : SBInstanceVars := iv

/-- Default `setMobilizerDefaultTimeValues` (source line 365): empty
body. -/
def RBNode.setMobilizerDefaultTimeValues (n : RBNode) (mv : SBModelVars)
    (tv : SBTimeVars) : SBTimeVars := tv

/-- Default `setMobilizerDefaultPositionValues` (source lines 367-370):
`toQ(q) = 0`. -/
def RBNode.setMobilizerDefaultPositionValues (n : RBNode) (mv : SBModelVars)
    (q : ℕ → ℚ) : ℕ → ℚ :=
  n.toQwrite q (fun _ => 0)

/-- Default `setMobilizerDefaultVelocityValues` (source lines 371-374):
`toU(u) = 0`. -/
def RBNode.setMobilizerDefaultVelocityValues (n : RBNode) (mv : SBModelVars)
    (u : ℕ → ℚ) : ℕ → ℚ :=
  n.toUwrite u (fun _ => 0)

/-- Default `setMobilizerDefaultDynamicsValues` (source line 375): empty
body. -/
def RBNode.setMobilizerDefaultDynamicsValues (n : RBNode) (mv : SBModelVars)
    (dv : SBDynamicsVars) : SBDynamicsVars := dv

/-- Default `setMobilizerDefaultAccelerationValues` (source lines
376-377): empty body. -/
def RBNode.setMobilizerDefaultAccelerationValues (n : RBNode) (mv : SBModelVars)
    (dv : SBDynamicsVars) : SBDynamicsVars := dv

/-- The three shared slot counters threaded through tree construction
(`nextUSlot`, `nextUSqSlot`, `nextQSlot`). -/
structure SlotCounters where
  nextUSlot : ℕ
  nextUSqSlot : ℕ
  nextQSlot : ℕ
deriving DecidableEq, Repr

/-- The non-slot data a node is constructed from (constructor arguments
other than the counters, plus the virtual `getMaxNQ()` value of the
concrete type). -/
structure NodeData where
  dof : ℕ
  maxNQ : ℕ
  qdotHandling : QDotHandling
  quaternionUse : QuaternionUse
  isReversed : Bool
  massProps : MassProperties
  X_PF : Transform
  X_MB : Transform
deriving DecidableEq, Repr

/-- The `RigidBodyNodeSpec` constructor (source lines 70-85): record the
current (pre-advance) counters as this node's `uIndex`, `uSqIndex`,
`qIndex`. -/
def constructNode (d : NodeData) (c : SlotCounters) : RBNode :=
  { dof := d.dof
    maxNQ := d.maxNQ
    uIndex := c.nextUSlot
    uSqIndex := c.nextUSqSlot
    qIndex := c.nextQSlot
    qdotHandling := d.qdotHandling
    quaternionUse := d.quaternionUse
    isReversed := d.isReversed
    massProps := d.massProps
    X_PF := d.X_PF
    X_MB := d.X_MB }

/-- `updateSlots(nextUSlot, nextUSqSlot, nextQSlot)` (source lines
87-92): advance the counters by `getDOF()`, `getDOF()*getDOF()` and the
virtual `getMaxNQ()`. -/
def RBNode.updateSlots (n : RBNode) (c : SlotCounters) : SlotCounters :=
  { nextUSlot := c.nextUSlot + n.getDOF
    nextUSqSlot := c.nextUSqSlot + n.getDOF * n.getDOF
    nextQSlot := c.nextQSlot + n.maxNQ }

/-- Sequential tree construction: each node is constructed with the
current counters, then `updateSlots` advances them for the next node. -/
def buildNodes : List NodeData → SlotCounters → List RBNode
  | [], _ => []
  | d :: ds, c =>
    let n := constructNode d c
    n :: buildNodes ds (n.updateSlots c)

/-- A concrete 1-dof pin-like node used in the concrete scenarios. -/
def pinNode : RBNode :=
  { dof := 1
    maxNQ := 1
    uIndex := 0
    uSqIndex := 0
    qIndex := 0
    qdotHandling := QDotHandling.QDotIsAlwaysTheSameAsU
    quaternionUse := QuaternionUse.QuaternionIsNeverUsed
    isReversed := false
    massProps := ⟨1, Vec3.zero, Mat33.identity⟩
    X_PF := Transform.identity
    X_MB := Transform.identity }

/-- A concrete 3-dof ball-like node in quaternion mode (the defaults
asserting `QuaternionIsNeverUsed` must fail on it). -/
def ballNode : RBNode :=
  { dof := 3
    maxNQ := 4
    uIndex := 1
    uSqIndex := 1
    qIndex := 1
    qdotHandling := QDotHandling.QDotMayDifferFromU
    quaternionUse := QuaternionUse.QuaternionMayBeUsed
    isReversed := false
    massProps := ⟨1, Vec3.zero, Mat33.identity⟩
    X_PF := Transform.identity
    X_MB := Transform.identity }

/-- Position cache whose H_FM and H pools hold the single column
angular (0,0,1) / linear (0,0,0) everywhere. -/
def zAxisPC : SBPositionCache :=
  { sq := fun _ => 0
    cq := fun _ => 0
    qnorm := fun _ => 0
    X_FM := Transform.identity
    X_PB := Transform.identity
    X_GB := Transform.identity
    X_GP := Transform.identity
    storageForH_FM := fun _ => (⟨0, 0, 1⟩, ⟨0, 0, 0⟩)
    storageForH := fun _ => (⟨0, 0, 1⟩, ⟨0, 0, 0⟩)
    jointIndependentPos := fun _ => 0 }

/-- An all-zero velocity cache. -/
def emptyVC : SBVelocityCache :=
  { V_FM := (Vec3.zero, Vec3.zero)
    V_PB_G := (Vec3.zero, Vec3.zero)
    jointIndependentVel := fun _ => 0 }

/-- An all-zero dynamics cache. -/
def emptyDC : SBDynamicsCache :=
  { storageForHDot_FM := fun _ => (Vec3.zero, Vec3.zero)
    storageForHDot := fun _ => (Vec3.zero, Vec3.zero)
    VD_PB_G := (Vec3.zero, Vec3.zero)
    jointIndependentDyn := fun _ => 0 }

/-- A concrete state digest for witnesses. -/
def sampleDigest : SBStateDigest :=
  { q := fun _ => 0
    u := fun _ => 2
    qErr := fun _ => 0
    mv := ⟨()⟩
    pc := zAxisPC
    vc := emptyVC
    dc := emptyDC }

/-- A concrete u-like array with distinct entries. -/
def sampleU : ℕ → ℚ := fun i => (i : ℚ) + 5

/-- A concrete q-like array with a recognizable constant value. -/
def sampleQ : ℕ → ℚ := fun _ => 9

/-- Concrete node data for the slot-allocation witness: a 1-dof node, a
3-dof quaternion node with 4 q slots, and a 6-dof node. -/
def sampleData : List NodeData :=
  [ ⟨1, 1, QDotHandling.QDotIsAlwaysTheSameAsU, QuaternionUse.QuaternionIsNeverUsed,
      false, ⟨1, Vec3.zero, Mat33.identity⟩, Transform.identity, Transform.identity⟩,
    ⟨3, 4, QDotHandling.QDotMayDifferFromU, QuaternionUse.QuaternionMayBeUsed,
      false, ⟨1, Vec3.zero, Mat33.identity⟩, Transform.identity, Transform.identity⟩,
    ⟨6, 6, QDotHandling.QDotIsAlwaysTheSameAsU, QuaternionUse.QuaternionIsNeverUsed,
      true, ⟨1, Vec3.zero, Mat33.identity⟩, Transform.identity, Transform.identity⟩ ]

/-! ## Helper lemmas -/

lemma writeHcols_read {d : ℕ} (pool : ℕ → SpatialVec) (s : ℕ) (H : HType d)
    (j : Fin d) : writeHcols pool s d H (s + j) = H j := by
  unfold writeHcols
  have hc : s ≤ s + (j : ℕ) ∧ s + (j : ℕ) < s + d :=
    ⟨Nat.le_add_right _ _, by omega⟩
  rw [dif_pos hc]
  congr 1
  apply Fin.ext
  simp

/-! ## Claim theorems -/

/-- C2: for every node and every generalized-speed vector u,
`calcJointKinematicsVel` sets `V_FM = H_FM * fromU(u)` and
`V_PB_G = H * fromU(u)` exactly; and the concrete 1-dof scenario with
Jacobian column angular (0,0,1) / linear (0,0,0) and u = [2] yields
relative angular velocity (0,0,2) and relative linear velocity (0,0,0)
in both cache entries. -/
theorem calcJointKinematicsVel_is_H_times_u :
    (∀ (n : RBNode) (pc : SBPositionCache) (u : ℕ → ℚ) (vc : SBVelocityCache),
        (n.calcJointKinematicsVel pc u vc).V_FM = hmul (n.getH_FM pc) (n.fromU u) ∧
        (n.calcJointKinematicsVel pc u vc).V_PB_G = hmul (n.getH pc) (n.fromU u)) ∧
    (pinNode.calcJointKinematicsVel zAxisPC (fun _ => 2) emptyVC).V_FM =
        ((⟨0, 0, 2⟩ : Vec3), (⟨0, 0, 0⟩ : Vec3)) ∧
    (pinNode.calcJointKinematicsVel zAxisPC (fun _ => 2) emptyVC).V_PB_G =
        ((⟨0, 0, 2⟩ : Vec3), (⟨0, 0, 0⟩ : Vec3)) := by
  refine ⟨fun n pc u vc => ⟨rfl, rfl⟩, ?_, ?_⟩ <;>
    · simp [RBNode.calcJointKinematicsVel, hmul, vsum, pinNode, zAxisPC, emptyVC,
        RBNode.getH_FM, RBNode.getH, RBNode.fromU, Vec3.smul, Vec3.add, Vec3.zero]

/-- C3: `realizePosition` stores as `X_FM` the inverse of the as-defined
across-joint transform when reversed and the as-defined transform
otherwise (both evaluated on the digest after the sin/cos/qnorm step,
exactly as the header calls them), then `X_PB = X_PF * X_FM * X_MB` and
`X_GB = X_GP * X_PB` using the fixed transforms and the parent's
already-realized ground transform. -/
theorem realizePosition_transforms (n : RBNode) (impl : JointImpl n.dof)
    (sbs : SBStateDigest) :
    (n.realizePosition impl sbs).pc.X_FM =
      (if n.isReversed
       then (impl.calcAcrossJointTransform (n.sinCosStep impl sbs)
              (n.sinCosStep impl sbs).q).invert
       else impl.calcAcrossJointTransform (n.sinCosStep impl sbs)
              (n.sinCosStep impl sbs).q) ∧
    (n.realizePosition impl sbs).pc.X_PB =
      (n.X_PF.mul ((n.realizePosition impl sbs).pc.X_FM)).mul n.X_MB ∧
    (n.realizePosition impl sbs).pc.X_GB =
      sbs.pc.X_GP.mul ((n.realizePosition impl sbs).pc.X_PB) := by
  cases hr : n.isReversed <;>
    simp [RBNode.realizePosition, RBNode.transformStep, RBNode.calcBodyTransforms,
      RBNode.sinCosStep, hr]

/-- C4: the forward-convention Jacobian slice stored by
`realizePosition` (and read back by the `getH_FM` accessor later stages
use) is the output of the reversed-mobilizer adapter
`calcReverseMobilizerH_FM` when the node is reversed and of the
as-defined `calcAcrossJointVelocityJacobian` otherwise; likewise
`realizeDynamics` stores the output of `calcReverseMobilizerHDot_FM`
when reversed and of `calcAcrossJointVelocityJacobianDot` otherwise. -/
theorem realizePosition_dynamics_reversed_adapter (n : RBNode)
    (impl : JointImpl n.dof) (sbs sbsd : SBStateDigest) :
    n.getH_FM (n.realizePosition impl sbs).pc =
      (if n.isReversed then impl.calcReverseMobilizerH_FM (n.transformStep impl sbs)
       else impl.calcAcrossJointVelocityJacobian (n.transformStep impl sbs)) ∧
    n.getHDot_FM (n.realizeDynamics impl sbsd).dc =
      (if n.isReversed then impl.calcReverseMobilizerHDot_FM sbsd
       else impl.calcAcrossJointVelocityJacobianDot sbsd) := by
  constructor
  · funext j
    cases hr : n.isReversed <;>
      simp [RBNode.realizePosition, RBNode.getH_FM, hr, writeHcols_read]
  · funext j
    cases hr : n.isReversed <;>
      simp [RBNode.realizeDynamics, RBNode.getHDot_FM, RBNode.calcJointDynamics,
        hr, writeHcols_read]

/-- C5: the default `setQToFitTransformImpl` is exactly the sequential
composition of the rotation fit on the transform's rotation part
followed by the translation fit on its translation part, and the default
`setUToFitVelocityImpl` is the angular fit on the angular component
followed by the linear fit on the linear component, for every input. -/
theorem setQToFit_setUToFit_defaults_compose :
    (∀ (rot : SBStateDigest → Mat33 → (ℕ → ℚ) → (ℕ → ℚ))
       (tr : SBStateDigest → Vec3 → (ℕ → ℚ) → (ℕ → ℚ))
       (sbs : SBStateDigest) (X : Transform) (q : ℕ → ℚ),
        setQToFitTransformImpl rot tr sbs X q = tr sbs X.p (rot sbs X.R q)) ∧
    (∀ (ang lin : SBStateDigest → (ℕ → ℚ) → Vec3 → (ℕ → ℚ) → (ℕ → ℚ))
       (sbs : SBStateDigest) (q : ℕ → ℚ) (V : SpatialVec) (u : ℕ → ℚ),
        setUToFitVelocityImpl ang lin sbs q V u = lin sbs q V.2 (ang sbs q V.1 u)) :=
  ⟨fun _ _ _ _ _ => rfl, fun _ _ _ _ _ _ => rfl⟩

/-- C9: `realizeModel`, `realizeInstance`, `realizeTime`,
`realizeAcceleration` and `realizeReport` have empty bodies: each leaves
the entire state digest (all stage caches and state variables)
unchanged, for every node and digest. -/
theorem realize_hook_stages_noop (n : RBNode) (sbs : SBStateDigest) :
    n.realizeModel sbs = sbs ∧ n.realizeInstance sbs = sbs ∧
    n.realizeTime sbs = sbs ∧ n.realizeAcceleration sbs = sbs ∧
    n.realizeReport sbs = sbs :=
  ⟨rfl, rfl, rfl, rfl, rfl⟩

/-- C10: the default position installer writes zero into exactly the
dof-sized q slice starting at `qIndex` and the default velocity
installer writes zero into exactly the dof-sized u slice starting at
`uIndex` (every entry outside those slices is returned unchanged), while
the Model, Instance, Time, Dynamics and Acceleration default installers
modify nothing. -/
theorem default_installers_write_only_own_slice (n : RBNode) (mv : SBModelVars)
    (q u : ℕ → ℚ) (i : ℕ) (tc : SBTopologyCache) (iv : SBInstanceVars)
    (tv : SBTimeVars) (dv : SBDynamicsVars) :
    (n.setMobilizerDefaultPositionValues mv q i =
      if n.qIndex ≤ i ∧ i < n.qIndex + n.dof then 0 else q i) ∧
    (n.setMobilizerDefaultVelocityValues mv u i =
      if n.uIndex ≤ i ∧ i < n.uIndex + n.dof then 0 else u i) ∧
    n.setMobilizerDefaultModelValues tc mv = mv ∧
    n.setMobilizerDefaultInstanceValues mv iv = iv ∧
    n.setMobilizerDefaultTimeValues mv tv = tv ∧
    n.setMobilizerDefaultDynamicsValues mv dv = dv ∧
    n.setMobilizerDefaultAccelerationValues mv dv = dv :=
  ⟨rfl, rfl, rfl, rfl, rfl, rfl, rfl⟩

lemma writeSlice_in {α : Type} (a : ℕ → α) (s len : ℕ) (src : ℕ → α) (k : ℕ)
    (hk : k < len) : writeSlice a s len src (s + k) = src k := by
  unfold writeSlice
  rw [if_pos ⟨Nat.le_add_right _ _, by omega⟩]
  congr 1
  omega

lemma writeSlice_out {α : Type} (a : ℕ → α) (s len : ℕ) (src : ℕ → α) (i : ℕ)
    (hi : i < s ∨ s + len ≤ i) : writeSlice a s len src i = a i := by
  unfold writeSlice
  rw [if_neg (by omega)]

/-- C1: for a node in `QDotIsAlwaysTheSameAsU` mode, the default
`calcQDot` succeeds and writes exactly the node's dof-sized u slice into
the corresponding q slice of qdot (identity copy, every other entry
untouched); the default `calcQDotDot` does the same from udot into
qdotdot, and the local-slice variants copy entries 0..dof-1 verbatim. -/
theorem calcQDot_default_identity (n : RBNode)
    (u qdot udot qdotdot lu lqd lud lqdd : ℕ → ℚ)
    (h : n.qdotHandling = QDotHandling.QDotIsAlwaysTheSameAsU) :
    (∃ out, n.calcQDot u qdot = some out ∧
      (∀ k, k < n.dof → out (n.qIndex + k) = u (n.uIndex + k)) ∧
      (∀ i, i < n.qIndex ∨ n.qIndex + n.dof ≤ i → out i = qdot i)) ∧
    (∃ out, n.calcQDotDot udot qdotdot = some out ∧
      (∀ k, k < n.dof → out (n.qIndex + k) = udot (n.uIndex + k)) ∧
      (∀ i, i < n.qIndex ∨ n.qIndex + n.dof ≤ i → out i = qdotdot i)) ∧
    (∃ out, n.calcLocalQDotFromLocalU lu lqd = some out ∧
      (∀ k, k < n.dof → out k = lu k) ∧ (∀ i, n.dof ≤ i → out i = lqd i)) ∧
    (∃ out, n.calcLocalQDotDotFromLocalUDot lud lqdd = some out ∧
      (∀ k, k < n.dof → out k = lud k) ∧ (∀ i, n.dof ≤ i → out i = lqdd i)) := by
  refine ⟨⟨n.toQwrite qdot (fun k => u (n.uIndex + k)), ?_, ?_, ?_⟩,
          ⟨n.toQwrite qdotdot (fun k => udot (n.uIndex + k)), ?_, ?_, ?_⟩,
          ⟨writeSlice lqd 0 n.dof lu, ?_, ?_, ?_⟩,
          ⟨writeSlice lqdd 0 n.dof lud, ?_, ?_, ?_⟩⟩
  · simp [RBNode.calcQDot, h]
  · intro k hk; exact writeSlice_in qdot n.qIndex n.dof _ k hk
  · intro i hi; exact writeSlice_out qdot n.qIndex n.dof _ i hi
  · simp [RBNode.calcQDotDot, h]
  · intro k hk; exact writeSlice_in qdotdot n.qIndex n.dof _ k hk
  · intro i hi; exact writeSlice_out qdotdot n.qIndex n.dof _ i hi
  · simp [RBNode.calcLocalQDotFromLocalU, h]
  · intro k hk; simpa using writeSlice_in lqd 0 n.dof lu k hk
  · intro i hi; exact writeSlice_out lqd 0 n.dof lu i (Or.inr (by omega))
  · simp [RBNode.calcLocalQDotDotFromLocalUDot, h]
  · intro k hk; simpa using writeSlice_in lqdd 0 n.dof lud k hk
  · intro i hi; exact writeSlice_out lqdd 0 n.dof lud i (Or.inr (by omega))

/-- Witness for C1 at the concrete 1-dof node and concrete arrays. -/
theorem calcQDot_default_identity_witness :
    pinNode.qdotHandling = QDotHandling.QDotIsAlwaysTheSameAsU ∧
    (∃ out, pinNode.calcQDot sampleU sampleQ = some out ∧
      (∀ k, k < pinNode.dof → out (pinNode.qIndex + k) = sampleU (pinNode.uIndex + k)) ∧
      (∀ i, i < pinNode.qIndex ∨ pinNode.qIndex + pinNode.dof ≤ i → out i = sampleQ i)) :=
  ⟨rfl, (calcQDot_default_identity pinNode sampleU sampleQ sampleU sampleQ
      sampleU sampleQ sampleU sampleQ rfl).1⟩

/-- C6: in `QuaternionIsNeverUsed` mode every quaternion-sensitive
default succeeds (its assertion holds), `getMaxNQ` and `getNQInUse`
return exactly dof, `copyQ` copies the node's q slice, the default
`isUsingQuaternion` reports false with an invalidated start index, and
the default `enforceQuaternionConstraints` reports no change; in any
other quaternion mode each of these un-overridden defaults fails its
assertion (modelled as `none`, the fatal outcome). -/
theorem quaternion_default_assertions (n : RBNode) (mv : SBModelVars)
    (sbs : SBStateDigest) (qIn q qErrest : ℕ → ℚ) :
    (n.quaternionUse = QuaternionUse.QuaternionIsNeverUsed →
      n.getMaxNQdefault = some n.dof ∧
      n.getNQInUse mv = some n.dof ∧
      n.copyQ mv qIn q = some (n.toQwrite q (fun k => qIn (n.qIndex + k))) ∧
      n.isUsingQuaternion sbs = some (false, none) ∧
      n.enforceQuaternionConstraints sbs q qErrest = some (false, q)) ∧
    (n.quaternionUse ≠ QuaternionUse.QuaternionIsNeverUsed →
      n.getMaxNQdefault = none ∧
      n.getNQInUse mv = none ∧
      n.copyQ mv qIn q = none ∧
      n.isUsingQuaternion sbs = none ∧
      n.enforceQuaternionConstraints sbs q qErrest = none) := by
  constructor <;> intro h <;>
    simp [RBNode.getMaxNQdefault, RBNode.getNQInUse, RBNode.copyQ,
      RBNode.isUsingQuaternion, RBNode.enforceQuaternionConstraints, h]

/-- Witness for C6: the non-quaternion pin node passes the assertions
with `getMaxNQ = dof`; the quaternion ball node fails them fatally. -/
theorem quaternion_default_assertions_witness :
    (pinNode.quaternionUse = QuaternionUse.QuaternionIsNeverUsed ∧
      pinNode.getMaxNQdefault = some pinNode.dof) ∧
    (ballNode.quaternionUse ≠ QuaternionUse.QuaternionIsNeverUsed ∧
      ballNode.getMaxNQdefault = none) :=
  ⟨⟨rfl, ((quaternion_default_assertions pinNode ⟨()⟩ sampleDigest sampleU
      sampleQ sampleQ).1 rfl).1⟩,
   ⟨by decide, ((quaternion_default_assertions ballNode ⟨()⟩ sampleDigest sampleU
      sampleQ sampleQ).2 (by decide)).1⟩⟩

/-- C7: for a node in `QDotIsAlwaysTheSameAsU` mode, the default
`multiplyByN` and `multiplyByNInv` succeed and copy the dof input values
to the output unchanged (the N block acts as the identity), for both
values of `matrixOnRight` (and of `useEulerAnglesIfPossible`), leaving
every output entry beyond the dof slice untouched. -/
theorem multiplyByN_NInv_identity (n : RBNode) (useEuler : Bool) (q : ℕ → ℚ)
    (matrixOnRight : Bool) (inp out : ℕ → ℚ)
    (h : n.qdotHandling = QDotHandling.QDotIsAlwaysTheSameAsU) :
    n.multiplyByN useEuler q matrixOnRight inp out =
      some (writeSlice out 0 n.dof inp) ∧
    n.multiplyByNInv useEuler q matrixOnRight inp out =
      some (writeSlice out 0 n.dof inp) ∧
    (∀ k, k < n.dof → writeSlice out 0 n.dof inp k = inp k) ∧
    (∀ i, n.dof ≤ i → writeSlice out 0 n.dof inp i = out i) := by
  refine ⟨?_, ?_, ?_, ?_⟩
  · simp [RBNode.multiplyByN, h]
  · simp [RBNode.multiplyByNInv, h]
  · intro k hk; simpa using writeSlice_in out 0 n.dof inp k hk
  · intro i hi; exact writeSlice_out out 0 n.dof inp i (Or.inr (by omega))

/-- Witness for C7: the concrete 1-dof node, exercised with both values
of the `matrixOnRight` flag. -/
theorem multiplyByN_NInv_identity_witness :
    pinNode.qdotHandling = QDotHandling.QDotIsAlwaysTheSameAsU ∧
    pinNode.multiplyByN true sampleQ true sampleU sampleQ =
      some (writeSlice sampleQ 0 pinNode.dof sampleU) ∧
    pinNode.multiplyByN true sampleQ false sampleU sampleQ =
      some (writeSlice sampleQ 0 pinNode.dof sampleU) ∧
    pinNode.multiplyByNInv false sampleQ true sampleU sampleQ =
      some (writeSlice sampleQ 0 pinNode.dof sampleU) :=
  ⟨rfl,
   (multiplyByN_NInv_identity pinNode true sampleQ true sampleU sampleQ rfl).1,
   (multiplyByN_NInv_identity pinNode true sampleQ false sampleU sampleQ rfl).1,
   (multiplyByN_NInv_identity pinNode false sampleQ true sampleU sampleQ rfl).2.1⟩

lemma buildNodes_cons (d : NodeData) (ds : List NodeData) (c : SlotCounters) :
    buildNodes (d :: ds) c =
      constructNode d c :: buildNodes ds ((constructNode d c).updateSlots c) := rfl

lemma buildNodes_length (ds : List NodeData) (c : SlotCounters) :
    (buildNodes ds c).length = ds.length := by
  induction ds generalizing c with
  | nil => rfl
  | cons d ds ih => simp [buildNodes_cons, ih]

lemma buildNodes_head (ds : List NodeData) (c : SlotCounters)
    (h : 0 < (buildNodes ds c).length) :
    ((buildNodes ds c).get ⟨0, h⟩).uIndex = c.nextUSlot ∧
    ((buildNodes ds c).get ⟨0, h⟩).uSqIndex = c.nextUSqSlot ∧
    ((buildNodes ds c).get ⟨0, h⟩).qIndex = c.nextQSlot := by
  cases ds with
  | nil => simp [buildNodes] at h
  | cons d ds => exact ⟨rfl, rfl, rfl⟩

lemma buildNodes_lb (ds : List NodeData) (c : SlotCounters) (i : ℕ)
    (h : i < (buildNodes ds c).length) :
    c.nextUSlot ≤ ((buildNodes ds c).get ⟨i, h⟩).uIndex ∧
    c.nextUSqSlot ≤ ((buildNodes ds c).get ⟨i, h⟩).uSqIndex ∧
    c.nextQSlot ≤ ((buildNodes ds c).get ⟨i, h⟩).qIndex := by
  induction ds generalizing c i with
  | nil => simp [buildNodes] at h
  | cons d ds ih =>
    cases i with
    | zero => exact ⟨le_refl _, le_refl _, le_refl _⟩
    | succ i =>
      have h' : i < (buildNodes ds ((constructNode d c).updateSlots c)).length := by
        rw [buildNodes_length] at h ⊢
        simpa using h
      have hrec := ih ((constructNode d c).updateSlots c) i h'
      have hg : (buildNodes (d :: ds) c).get ⟨i + 1, h⟩ =
          (buildNodes ds ((constructNode d c).updateSlots c)).get ⟨i, h'⟩ := rfl
      rw [hg]
      refine ⟨le_trans (Nat.le_add_right _ _) hrec.1,
              le_trans (Nat.le_add_right _ _) hrec.2.1,
              le_trans (Nat.le_add_right _ _) hrec.2.2⟩

lemma buildNodes_dense (ds : List NodeData) (c : SlotCounters) (i : ℕ)
    (h1 : i + 1 < (buildNodes ds c).length)
    (h0 : i < (buildNodes ds c).length) :
    ((buildNodes ds c).get ⟨i + 1, h1⟩).uIndex =
      ((buildNodes ds c).get ⟨i, h0⟩).uIndex + ((buildNodes ds c).get ⟨i, h0⟩).dof ∧
    ((buildNodes ds c).get ⟨i + 1, h1⟩).uSqIndex =
      ((buildNodes ds c).get ⟨i, h0⟩).uSqIndex +
        ((buildNodes ds c).get ⟨i, h0⟩).dof * ((buildNodes ds c).get ⟨i, h0⟩).dof ∧
    ((buildNodes ds c).get ⟨i + 1, h1⟩).qIndex =
      ((buildNodes ds c).get ⟨i, h0⟩).qIndex + ((buildNodes ds c).get ⟨i, h0⟩).maxNQ := by
  induction ds generalizing c i with
  | nil => simp [buildNodes] at h0
  | cons d ds ih =>
    cases i with
    | zero =>
      have h1' : 0 < (buildNodes ds ((constructNode d c).updateSlots c)).length := by
        rw [buildNodes_length] at h1 ⊢
        simpa using h1
      have hg : (buildNodes (d :: ds) c).get ⟨1, h1⟩ =
          (buildNodes ds ((constructNode d c).updateSlots c)).get ⟨0, h1'⟩ := rfl
      rw [hg]
      have hh := buildNodes_head ds ((constructNode d c).updateSlots c) h1'
      exact ⟨hh.1, hh.2.1, hh.2.2⟩
    | succ i =>
      have h1' : i + 1 < (buildNodes ds ((constructNode d c).updateSlots c)).length := by
        rw [buildNodes_length] at h1 ⊢
        simpa using h1
      have h0' : i < (buildNodes ds ((constructNode d c).updateSlots c)).length := by
        omega
      have hg1 : (buildNodes (d :: ds) c).get ⟨i + 1 + 1, h1⟩ =
          (buildNodes ds ((constructNode d c).updateSlots c)).get ⟨i + 1, h1'⟩ := rfl
      have hg0 : (buildNodes (d :: ds) c).get ⟨i + 1, h0⟩ =
          (buildNodes ds ((constructNode d c).updateSlots c)).get ⟨i, h0'⟩ := rfl
      rw [hg1, hg0]
      exact ih ((constructNode d c).updateSlots c) i h1' h0'

lemma buildNodes_disjoint (ds : List NodeData) (c : SlotCounters) (i j : ℕ)
    (hi : i < (buildNodes ds c).length) (hj : j < (buildNodes ds c).length)
    (hij : i < j) :
    ((buildNodes ds c).get ⟨i, hi⟩).uIndex + ((buildNodes ds c).get ⟨i, hi⟩).dof ≤
      ((buildNodes ds c).get ⟨j, hj⟩).uIndex ∧
    ((buildNodes ds c).get ⟨i, hi⟩).uSqIndex +
        ((buildNodes ds c).get ⟨i, hi⟩).dof * ((buildNodes ds c).get ⟨i, hi⟩).dof ≤
      ((buildNodes ds c).get ⟨j, hj⟩).uSqIndex ∧
    ((buildNodes ds c).get ⟨i, hi⟩).qIndex + ((buildNodes ds c).get ⟨i, hi⟩).maxNQ ≤
      ((buildNodes ds c).get ⟨j, hj⟩).qIndex := by
  induction ds generalizing c i j with
  | nil => simp [buildNodes] at hi
  | cons d ds ih =>
    cases j with
    | zero => omega
    | succ j =>
      have hj' : j < (buildNodes ds ((constructNode d c).updateSlots c)).length := by
        rw [buildNodes_length] at hj ⊢
        simpa using hj
      have hgj : (buildNodes (d :: ds) c).get ⟨j + 1, hj⟩ =
          (buildNodes ds ((constructNode d c).updateSlots c)).get ⟨j, hj'⟩ := rfl
      cases i with
      | zero =>
        rw [hgj]
        have hlb := buildNodes_lb ds ((constructNode d c).updateSlots c) j hj'
        exact ⟨hlb.1, hlb.2.1, hlb.2.2⟩
      | succ i =>
        have hi' : i < (buildNodes ds ((constructNode d c).updateSlots c)).length := by
          rw [buildNodes_length] at hi ⊢
          simpa using hi
        have hgi : (buildNodes (d :: ds) c).get ⟨i + 1, hi⟩ =
            (buildNodes ds ((constructNode d c).updateSlots c)).get ⟨i, hi'⟩ := rfl
        rw [hgi, hgj]
        exact ih ((constructNode d c).updateSlots c) i j hi' hj' (by omega)

/-- C8: `updateSlots` advances the three counters by exactly `dof`,
`dof*dof` and `getMaxNQ()`; the constructor records the pre-advance
counters as the node's `uIndex`, `uSqIndex`, `qIndex`; and along any
sequential construction the slices are dense (each node's index is the
previous node's index plus its slice size) and non-overlapping (an
earlier node's slice ends at or before a later node's begins) in the
u, u-squared and q pools. -/
theorem updateSlots_dense_disjoint_slots (d0 : NodeData) (n0 : RBNode)
    (c0 : SlotCounters) (ds : List NodeData) (c : SlotCounters) (i j : ℕ)
    (hi : i < (buildNodes ds c).length) (hj : j < (buildNodes ds c).length)
    (hij : i < j) :
    (n0.updateSlots c0).nextUSlot = c0.nextUSlot + n0.getDOF ∧
    (n0.updateSlots c0).nextUSqSlot = c0.nextUSqSlot + n0.getDOF * n0.getDOF ∧
    (n0.updateSlots c0).nextQSlot = c0.nextQSlot + n0.maxNQ ∧
    (constructNode d0 c0).uIndex = c0.nextUSlot ∧
    (constructNode d0 c0).uSqIndex = c0.nextUSqSlot ∧
    (constructNode d0 c0).qIndex = c0.nextQSlot ∧
    (((buildNodes ds c).get ⟨i, hi⟩).uIndex + ((buildNodes ds c).get ⟨i, hi⟩).dof ≤
        ((buildNodes ds c).get ⟨j, hj⟩).uIndex ∧
      ((buildNodes ds c).get ⟨i, hi⟩).uSqIndex +
          ((buildNodes ds c).get ⟨i, hi⟩).dof * ((buildNodes ds c).get ⟨i, hi⟩).dof ≤
        ((buildNodes ds c).get ⟨j, hj⟩).uSqIndex ∧
      ((buildNodes ds c).get ⟨i, hi⟩).qIndex + ((buildNodes ds c).get ⟨i, hi⟩).maxNQ ≤
        ((buildNodes ds c).get ⟨j, hj⟩).qIndex) ∧
    (∀ (hj1 : j = i + 1),
      ((buildNodes ds c).get ⟨j, hj⟩).uIndex =
        ((buildNodes ds c).get ⟨i, hi⟩).uIndex + ((buildNodes ds c).get ⟨i, hi⟩).dof ∧
      ((buildNodes ds c).get ⟨j, hj⟩).uSqIndex =
        ((buildNodes ds c).get ⟨i, hi⟩).uSqIndex +
          ((buildNodes ds c).get ⟨i, hi⟩).dof * ((buildNodes ds c).get ⟨i, hi⟩).dof ∧
      ((buildNodes ds c).get ⟨j, hj⟩).qIndex =
        ((buildNodes ds c).get ⟨i, hi⟩).qIndex + ((buildNodes ds c).get ⟨i, hi⟩).maxNQ) := by
  refine ⟨rfl, rfl, rfl, rfl, rfl, rfl,
    buildNodes_disjoint ds c i j hi hj hij, ?_⟩
  intro hj1
  subst hj1
  exact buildNodes_dense ds c i hj hi

/-- Witness for C8: in the concrete three-node build (1-dof, 3-dof
quaternion with 4 q slots, 6-dof) starting from zeroed counters, node 0
and node 1 get non-overlapping and exactly abutting u slices. -/
theorem updateSlots_dense_disjoint_slots_witness :
    ((buildNodes sampleData ⟨0, 0, 0⟩).get ⟨0, by decide⟩).uIndex +
        ((buildNodes sampleData ⟨0, 0, 0⟩).get ⟨0, by decide⟩).dof ≤
      ((buildNodes sampleData ⟨0, 0, 0⟩).get ⟨1, by decide⟩).uIndex ∧
    ((buildNodes sampleData ⟨0, 0, 0⟩).get ⟨1, by decide⟩).uIndex =
      ((buildNodes sampleData ⟨0, 0, 0⟩).get ⟨0, by decide⟩).uIndex +
        ((buildNodes sampleData ⟨0, 0, 0⟩).get ⟨0, by decide⟩).dof := by
  have X := updateSlots_dense_disjoint_slots
    ⟨1, 1, QDotHandling.QDotIsAlwaysTheSameAsU, QuaternionUse.QuaternionIsNeverUsed,
      false, ⟨1, Vec3.zero, Mat33.identity⟩, Transform.identity, Transform.identity⟩
    pinNode ⟨0, 0, 0⟩ sampleData ⟨0, 0, 0⟩ 0 1 (by decide) (by decide) (by decide)
  exact ⟨X.2.2.2.2.2.2.1.1, (X.2.2.2.2.2.2.2 rfl).1⟩
